import Mathlib

/-!
Verification of the tax-form rendering core (`form_render.py`).

The development shallowly embeds the functions of `TaxFormRenderer`:
`resolve_value_reference`, the formatters (`_format_currency`, `_format_mask`,
`_format_date`, `_format_percentage`, `_format_checkbox`), `validate_value`
and `_render_field`.  Python/JSON values are modelled by the inductive
`JValue`; Python floats are modelled as exact rationals (`Rat`); the reportlab
canvas is modelled as a list of emitted drawing operations together with a
text-measuring parameter; an exception that escapes a function is modelled by
`PyResult.raised`.
-/

/-- JSON-like Python value: the payload type of the data document and of all
resolved field values.  Python distinguishes `int` and `float`; floats are
modelled as exact rationals. -/
inductive JValue where
  | null
  | bool (b : Bool)
  | int (n : Int)
  | float (q : Rat)
  | str (s : String)
  | arr (xs : List JValue)
  | obj (kvs : List (String × JValue))

/-- Result of a Python call: either a returned value, or an exception that
propagates to the caller uncaught. -/
inductive PyResult (α : Type) where
  | ok (a : α)
  | raised
deriving DecidableEq

/-- Characters stripped by Python's `str.strip()` (whitespace). -/
def isPySpace (c : Char) : Bool :=
  c = ' ' || c = '\t' || c = '\n' || c = '\r' || c = '\x0b' || c = '\x0c'

/-- Strip leading and trailing whitespace from a character list
(Python `str.strip()`). -/
def stripEnds (cs : List Char) : List Char :=
  ((cs.dropWhile isPySpace).reverse.dropWhile isPySpace).reverse

/-- Numeric value of a list of decimal digit characters. -/
def digitsVal (ds : List Char) : Nat :=
  ds.foldl (fun a c => 10 * a + (c.toNat - 48)) 0

/-- Parse a nonempty all-digit character list, else fail. -/
def parseDigits (ds : List Char) : Option Nat :=
  if ds ≠ [] && ds.all Char.isDigit then some (digitsVal ds) else none

/-- Python `int(s)` on a string: strip whitespace, optional sign, decimal
digits; anything else raises `ValueError` (modelled as `none`).  Digit-group
underscores are not modelled. -/
def parsePyInt (cs : List Char) : Option Int :=
  match stripEnds cs with
  | [] => none
  | c :: rest =>
    if c = '-' then (parseDigits rest).map (fun n => -(n : Int))
    else if c = '+' then (parseDigits rest).map (fun n => (n : Int))
    else (parseDigits (c :: rest)).map (fun n => (n : Int))

/-- Split a character list at the first occurrence of `c`: the part before it
and, when present, the part after it. -/
def splitAtChar (c : Char) : List Char → List Char × Option (List Char)
  | [] => ([], none)
  | d :: ds =>
    if d = c then ([], some ds)
    else
      let r := splitAtChar c ds
      (d :: r.1, r.2)

/-- Parse the mantissa of a Python float literal: `digits`, `digits.digits`,
`digits.` or `.digits`. -/
def parseMantissa (cs : List Char) : Option Rat :=
  match splitAtChar '.' cs with
  | (intDs, none) => (parseDigits intDs).map (fun n => (n : Rat))
  | (intDs, some fracDs) =>
    if intDs = [] && fracDs = [] then none
    else if intDs.all Char.isDigit && fracDs.all Char.isDigit then
      some ((digitsVal intDs : Rat) + (digitsVal fracDs : Rat) / (10 : Rat) ^ fracDs.length)
    else none

/-- Parse an optional-sign decimal exponent. -/
def parseExp (cs : List Char) : Option Int :=
  match cs with
  | [] => none
  | c :: rest =>
    if c = '-' then (parseDigits rest).map (fun n => -(n : Int))
    else if c = '+' then (parseDigits rest).map (fun n => (n : Int))
    else (parseDigits (c :: rest)).map (fun n => (n : Int))

/-- Scale a rational by an integer power of ten. -/
def scalePow10 (q : Rat) (e : Int) : Rat :=
  if 0 ≤ e then q * (10 : Rat) ^ e.toNat else q / (10 : Rat) ^ (-e).toNat

/-- Unsigned body of a Python float literal: mantissa with optional
`e`/`E` exponent. -/
def parsePyFloatBody (cs : List Char) : Option Rat :=
  match splitAtChar 'e' cs with
  | (m, some e) =>
    match parseMantissa m, parseExp e with
    | some q, some ex => some (scalePow10 q ex)
    | _, _ => none
  | (_, none) =>
    match splitAtChar 'E' cs with
    | (m, some e) =>
      match parseMantissa m, parseExp e with
      | some q, some ex => some (scalePow10 q ex)
      | _, _ => none
    | (_, none) => parseMantissa cs

/-- Python `float(s)` on a string: strip whitespace, optional sign, decimal
mantissa with optional fraction, optional exponent.  Non-finite literals
(`inf`, `nan`) and digit-group underscores are not modelled. -/
def parsePyFloat (cs : List Char) : Option Rat :=
  match stripEnds cs with
  | [] => none
  | c :: rest =>
    if c = '-' then (parsePyFloatBody rest).map (fun q => -q)
    else if c = '+' then parsePyFloatBody rest
    else parsePyFloatBody (c :: rest)

/-- Python single-quoted repr of a string (escape sequences not modelled). -/
def quoteStr (s : String) : String :=
  String.mk (Char.ofNat 39 :: (s.data ++ [Char.ofNat 39]))

/-- Decimal representation of an integer (Python `str(int)`). -/
def intRepr (n : Int) : String :=
  if n < 0 then "-" ++ Nat.repr n.natAbs else Nat.repr n.toNat

/-- Smallest number of decimal places (capped at 17) at which the decimal
expansion of `q` terminates. -/
def decimalLen (q : Rat) : Nat :=
  (List.range 18).findIdx (fun k => (q * (10 : Rat) ^ k).den = 1)

/-- Digits of the fractional part of a nonnegative rational to `k` places
(truncated), zero-padded on the left to length `k`. -/
def fracDigits (a : Rat) (k : Nat) : List Char :=
  let frac := a - (Rat.floor a : Rat)
  let ds := (Nat.repr (Rat.floor (frac * (10 : Rat) ^ k)).toNat).data
  List.replicate (k - ds.length) '0' ++ ds

/-- Python `str(float)` approximation: sign, integer part, point, fractional
digits (at least one); the shortest-round-trip behaviour of binary floats is
approximated by the exact decimal expansion capped at 17 places. -/
def floatRepr (q : Rat) : String :=
  let sign := if q < 0 then "-" else ""
  let a := |q|
  let k := max 1 (decimalLen a)
  sign ++ Nat.repr (Rat.floor a).toNat ++ "." ++ String.mk (fracDigits a k)

mutual

/-- Python `str(value)`.  `repr` is used for elements of containers; float
rendering is approximated by exact decimal expansion (see `floatRepr`). -/
def pyStr : JValue → String
  | .null => "None"
  | .bool true => "True"
  | .bool false => "False"
  | .int n => intRepr n
  | .float q => floatRepr q
  | .str s => s
  | .arr xs => "[" ++ pyReprList xs ++ "]"
  | .obj kvs => "\x7b" ++ pyReprObj kvs ++ "\x7d"

/-- Python `repr(value)`: differs from `str` on strings (quoted). -/
def pyRepr : JValue → String
  | .str s => quoteStr s
  | .null => "None"
  | .bool true => "True"
  | .bool false => "False"
  | .int n => intRepr n
  | .float q => floatRepr q
  | .arr xs => "[" ++ pyReprList xs ++ "]"
  | .obj kvs => "\x7b" ++ pyReprObj kvs ++ "\x7d"

/-- Comma-separated reprs of list elements. -/
def pyReprList : List JValue → String
  | [] => ""
  | [x] => pyRepr x
  | x :: xs => pyRepr x ++ ", " ++ pyReprList xs

/-- Comma-separated `key: value` reprs of dict items. -/
def pyReprObj : List (String × JValue) → String
  | [] => ""
  | [(k, v)] => quoteStr k ++ ": " ++ pyRepr v
  | (k, v) :: kvs => quoteStr k ++ ": " ++ pyRepr v ++ ", " ++ pyReprObj kvs

end

/-- Python `float(value)` coercion: numbers and numeric strings succeed,
booleans coerce to `0`/`1`; `None`, lists and dicts raise `TypeError`
(modelled as `none`). -/
def pyFloat : JValue → Option Rat
  | .int n => some (n : Rat)
  | .float q => some q
  | .bool b => some (if b then 1 else 0)
  | .str s => parsePyFloat s.data
  | .null => none
  | .arr _ => none
  | .obj _ => none

/-- Python `path.split(sep)` for a single-character separator: never returns
an empty list, keeps empty pieces. -/
def pySplit (sep : Char) : List Char → List (List Char)
  | [] => [[]]
  | c :: cs =>
    if c = sep then [] :: pySplit sep cs
    else
      match pySplit sep cs with
      | [] => [[c]]
      | g :: gs => (c :: g) :: gs

/-- Association-list lookup for JSON object members (Python `dict.get`). -/
def lookupKvs : List (String × JValue) → String → Option JValue
  | [], _ => none
  | (k, v) :: rest, key => if k = key then some v else lookupKvs rest key

/-- Python list subscription with negative-index support; `none` is
`IndexError`. -/
def pyIndexList (xs : List JValue) (i : Int) : Option JValue :=
  if 0 ≤ i then xs.get? i.toNat
  else if (-i).toNat ≤ xs.length then xs.get? (xs.length - (-i).toNat)
  else none

/-- Python string subscription with negative-index support. -/
def pyIndexStr (s : String) (i : Int) : Option Char :=
  if 0 ≤ i then s.data.get? i.toNat
  else if (-i).toNat ≤ s.data.length then s.data.get? (s.data.length - (-i).toNat)
  else none

/-- Whether a path segment triggers the subscript branch of
`resolve_value_reference` (Python `'[' in key and ']' in key`). -/
def keyHasBrackets (k : List Char) : Bool :=
  k.contains '[' && k.contains ']'

/-- Python `key[:key.index('[')]`. -/
def bracketBase (k : List Char) : List Char :=
  k.takeWhile (fun c => c != '[')

/-- Python `key[key.index('[')+1:key.index(']')]`. -/
def bracketIdxStr (k : List Char) : List Char :=
  (k.takeWhile (fun c => c != ']')).drop ((k.takeWhile (fun c => c != '[')).length + 1)

/-- Outcome of one or more traversal steps: a value, a recovered failure
(an exception in the `except` list, or a `None` value), or an uncaught
exception. -/
inductive TravResult where
  | found (v : JValue)
  | miss
  | raised

/-- One iteration of the key loop of `resolve_value_reference`: subscript
segments parse the index with `int(...)` (whose `ValueError` is not in the
`except` list, hence `raised`), then apply `value.get(base_key, [])[index]`;
plain segments apply `value.get(key)`.  `KeyError`, `IndexError`, `TypeError`
and `AttributeError` are caught by the caller, modelled as `miss`. -/
def stepKey (value : JValue) (key : List Char) : TravResult :=
  if keyHasBrackets key then
    match parsePyInt (bracketIdxStr key) with
    | none => .raised
    | some idx =>
      match value with
      | .obj kvs =>
        match (lookupKvs kvs (String.mk (bracketBase key))).getD (.arr []) with
        | .arr xs =>
          match pyIndexList xs idx with
          | some v => .found v
          | none => .miss
        | .str s =>
          match pyIndexStr s idx with
          | some c => .found (.str (String.mk [c]))
          | none => .miss
        | _ => .miss
      | _ => .miss
  else
    match value with
    | .obj kvs => .found ((lookupKvs kvs (String.mk key)).getD .null)
    | _ => .miss

/-- The key loop of `resolve_value_reference`, including the
`if value is None: return default` check after every step. -/
def resolveLoop (value : JValue) : List (List Char) → TravResult
  | [] => .found value
  | key :: rest =>
    match stepKey value key with
    | .raised => .raised
    | .miss => .miss
    | .found .null => .miss
    | .found w => resolveLoop w rest

/-- Embedding of `TaxFormRenderer.resolve_value_reference(path, default)` over document
`data`: empty path returns the default; otherwise the path is split on `.`
and traversed; a recovered failure returns the default; an uncaught
`ValueError` from `int(...)` propagates. -/
def resolve_value_reference (data : JValue) (path : String) (default : JValue) :
    PyResult JValue :=
  if path = "" then .ok default
  else
    match resolveLoop data (pySplit '.' path.data) with
    | .found v => .ok v
    | .miss => .ok default
    | .raised => .raised

/-! ## Specification-side path semantics (section 4.1 of the spec) -/

/-- A path segment as the spec describes it: a base key, optionally carrying a
trailing `[index]` integer subscript. -/
inductive SpecSeg where
  | plain (base : List Char)
  | indexed (base : List Char) (digits : List Char)

/-- The concrete text of a segment. -/
def renderSeg : SpecSeg → List Char
  | .plain b => b
  | .indexed b ds => b ++ '[' :: (ds ++ [']'])

/-- Well-formedness of a segment: nonempty bracket-free base key, and for an
indexed segment a nonempty decimal subscript. -/
def validSeg : SpecSeg → Bool
  | .plain b => !b.isEmpty && b.all (fun c => c != '[' && c != ']')
  | .indexed b ds =>
    !b.isEmpty && b.all (fun c => c != '[' && c != ']') &&
      (!ds.isEmpty && ds.all Char.isDigit)

/-- Modelled from the spec: strict left-to-right traversal; each segment looks
up the base key in the current mapping, an indexed segment then subscripts the
resulting sequence; any mismatch stops resolution. -/
def specLookup : JValue → List SpecSeg → Option JValue
  | v, [] => some v
  | .obj kvs, .plain b :: rest =>
    match lookupKvs kvs (String.mk b) with
    | some w => specLookup w rest
    | none => none
  | .obj kvs, .indexed b ds :: rest =>
    match lookupKvs kvs (String.mk b) with
    | some (.arr xs) =>
      match xs.get? (digitsVal ds) with
      | some w => specLookup w rest
      | none => none
    | _ => none
  | _, _ => none

/-- A path is well formed when every bracketed segment's subscript text parses
as an integer (Python `int(...)` does not raise). -/
def wellFormedPath (path : String) : Prop :=
  ∀ key ∈ pySplit '.' path.data,
    keyHasBrackets key = true → parsePyInt (bracketIdxStr key) ≠ none

/-- Traversal reachability: from document `v` with remaining keys `ks`, the key
loop of `resolve_value_reference` reaches value `u` with remaining keys `ls`
(every intermediate step succeeded with a non-`None` value). -/
inductive Reaches : JValue → List (List Char) → JValue → List (List Char) → Prop where
  | refl (v : JValue) (ks : List (List Char)) : Reaches v ks v ks
  | step (v w u : JValue) (k : List Char) (ks ls : List (List Char)) :
      stepKey v k = .found w → w ≠ .null → Reaches w ks u ls → Reaches v (k :: ks) u ls

/-! ## Formatter embeddings (format_value and helpers) -/

/-- Round `q * 10^dp` to an integer with banker's rounding (ties to even), as
Python's fixed-point float formatting does.  Formatting in Python rounds the
binary double; on exactly representable inputs the two agree. -/
def roundHalfEvenScaled (q : Rat) (dp : Nat) : Int :=
  let x := q * (10 : Rat) ^ dp
  let f := Rat.floor x
  let r := x - (f : Rat)
  if r < 1 / 2 then f
  else if 1 / 2 < r then f + 1
  else if f % 2 = 0 then f else f + 1

/-- Insert a comma after every third digit of a reversed digit list. -/
def groupAux : List Char → List Char
  | d1 :: d2 :: d3 :: d4 :: rest => d1 :: d2 :: d3 :: ',' :: groupAux (d4 :: rest)
  | l => l

/-- Comma thousands grouping of a digit list (Python's `,` format flag). -/
def groupThousands (ds : List Char) : List Char :=
  (groupAux ds.reverse).reverse

/-- Python `f"{n:,}"` for a natural number. -/
def natGrouped (n : Nat) : String :=
  String.mk (groupThousands (Nat.repr n).data)

/-- Digits of `a` rounded at `dp` places, split into integer and fractional
digit lists (fractional part exactly `dp` digits). -/
def scaledDigits (a : Rat) (dp : Nat) : List Char × List Char :=
  let ds0 := (Nat.repr (roundHalfEvenScaled a dp).toNat).data
  let ds := List.replicate (dp + 1 - ds0.length) '0' ++ ds0
  (ds.take (ds.length - dp), ds.drop (ds.length - dp))

/-- Python `f"{a:,.{dp}f}"` for nonnegative `a`: banker's rounding, comma
grouping, no decimal point when `dp = 0`. -/
def fixedGrouped (a : Rat) (dp : Nat) : String :=
  let p := scaledDigits a dp
  if dp = 0 then String.mk (groupThousands p.1)
  else String.mk (groupThousands p.1) ++ "." ++ String.mk p.2

/-- Python `f"{q:.{dp}f}"`: banker's rounding, no grouping, sign kept. -/
def fixedPlain (q : Rat) (dp : Nat) : String :=
  let p := scaledDigits |q| dp
  let body := if dp = 0 then String.mk p.1 else String.mk p.1 ++ "." ++ String.mk p.2
  if q < 0 then "-" ++ body else body

/-- The open parameter mapping of a formatting rule, with each key's
`params.get(...)` default from the source. -/
structure FormatParams where
  decimal_places : Nat
  show_cents : Bool
  currency_symbol : String
  thousands_separator : String
  negative_format : String
  pattern : String
  format : String
  input_format : String
  multiply_by_100 : Bool
  show_symbol : Bool
  checked_symbol : String
  unchecked_symbol : String

/-- The `params.get` defaults used by the formatters: decimal_places 2,
show_cents true, currency symbol `$`, separator `,`, parentheses negatives,
empty mask pattern, `MM/DD/YYYY` output, `ISO8601` input, multiply by 100,
show percent symbol, `X` checked, empty unchecked. -/
def defaultParams : FormatParams :=
  ⟨2, true, "$", ",", "parentheses", "", "MM/DD/YYYY", "ISO8601", true, true, "X", ""⟩

/-- Embedding of `TaxFormRenderer._format_currency`: coerce to float (failure returns
"0.00"), take the absolute value, format with the configured decimal places
(comma grouping is hard-coded by the f-string; the `thousands_separator`
parameter is read but never used by the source), prefix the symbol if
nonempty, then re-apply the sign per `negative_format`. -/
def _format_currency (value : JValue) (params : FormatParams) : String :=
  match pyFloat value with
  | none => "0.00"
  | some num =>
    let is_negative := decide (num < 0)
    let a := |num|
    let formatted :=
      if params.show_cents then fixedGrouped a params.decimal_places
      else natGrouped (Rat.floor a).toNat
    let formatted :=
      if params.currency_symbol ≠ "" then params.currency_symbol ++ formatted
      else formatted
    if is_negative then
      if params.negative_format = "parentheses" then "(" ++ formatted ++ ")"
      else "-" ++ formatted
    else formatted

/-- The pattern loop of `_format_mask`: `val_idx` walks the stripped source
string; `#` and `X` consume its next character when one remains; every other
pattern character is copied. -/
def maskAux (valueStr : List Char) : List Char → Nat → List Char
  | [], _ => []
  | c :: ps, i =>
    if c = '#' ∨ c = 'X' then
      if i < valueStr.length then valueStr.getD i ' ' :: maskAux valueStr ps (i + 1)
      else maskAux valueStr ps i
    else c :: maskAux valueStr ps i

/-- Embedding of `TaxFormRenderer._format_mask`: strip `-` and spaces from the stringified
value, then walk the pattern. -/
def _format_mask (value : JValue) (params : FormatParams) : String :=
  let value_str := (pyStr value).data.filter (fun c => c != '-' && c != ' ')
  String.mk (maskAux value_str params.pattern.data 0)

/-- Modelled from the spec (section 4.2, mask): walk the template left to
right; each `#` or `X` consumes the next unconsumed source character; any
other pattern character is copied literally; exhausted source omits the
remaining placeholders. -/
def maskWalk : List Char → List Char → List Char
  | [], _ => []
  | c :: ps, src =>
    if c = '#' ∨ c = 'X' then
      match src with
      | [] => maskWalk ps []
      | s :: ss => s :: maskWalk ps ss
    else c :: maskWalk ps src

/-- A Python `datetime` value (date and time of day; microseconds and time
zones are not modelled). -/
structure PyDateTime where
  year : Nat
  month : Nat
  day : Nat
  hour : Nat
  minute : Nat
  second : Nat

def isLeapYear (y : Nat) : Bool :=
  (y % 4 = 0 && y % 100 ≠ 0) || y % 400 = 0

def daysInMonth (y m : Nat) : Nat :=
  if m = 2 then (if isLeapYear y then 29 else 28)
  else if m = 4 ∨ m = 6 ∨ m = 9 ∨ m = 11 then 30
  else 31

def validYMD (y m d : Nat) : Bool :=
  1 ≤ y && y ≤ 9999 && 1 ≤ m && m ≤ 12 && 1 ≤ d && d ≤ daysInMonth y m

def validHMS (h mi s : Nat) : Bool :=
  h ≤ 23 && mi ≤ 59 && s ≤ 59

/-- Numeric value of two digit characters. -/
def val2 (c1 c2 : Char) : Nat :=
  10 * (c1.toNat - 48) + (c2.toNat - 48)

/-- Numeric value of four digit characters. -/
def val4 (c1 c2 c3 c4 : Char) : Nat :=
  100 * val2 c1 c2 + val2 c3 c4

/-- Model of `datetime.fromisoformat` for its `YYYY-MM-DD` and
`YYYY-MM-DD*HH:MM:SS` forms (any single separator character); other accepted
variants of CPython are not modelled.  Malformed input is `none`
(`ValueError`). -/
def parseIso : List Char → Option PyDateTime
  | [y1, y2, y3, y4, s1, m1, m2, s2, d1, d2] =>
    if [y1, y2, y3, y4, m1, m2, d1, d2].all Char.isDigit && s1 = '-' && s2 = '-' &&
        validYMD (val4 y1 y2 y3 y4) (val2 m1 m2) (val2 d1 d2) then
      some ⟨val4 y1 y2 y3 y4, val2 m1 m2, val2 d1 d2, 0, 0, 0⟩
    else none
  | [y1, y2, y3, y4, s1, m1, m2, s2, d1, d2, _, h1, h2, c1, n1, n2, c2, e1, e2] =>
    if [y1, y2, y3, y4, m1, m2, d1, d2, h1, h2, n1, n2, e1, e2].all Char.isDigit &&
        s1 = '-' && s2 = '-' && c1 = ':' && c2 = ':' &&
        validYMD (val4 y1 y2 y3 y4) (val2 m1 m2) (val2 d1 d2) &&
        validHMS (val2 h1 h2) (val2 n1 n2) (val2 e1 e2) then
      some ⟨val4 y1 y2 y3 y4, val2 m1 m2, val2 d1 d2, val2 h1 h2, val2 n1 n2, val2 e1 e2⟩
    else none
  | _ => none

def setYear (d : PyDateTime) (v : Nat) : PyDateTime := ⟨v, d.month, d.day, d.hour, d.minute, d.second⟩
def setMonth (d : PyDateTime) (v : Nat) : PyDateTime := ⟨d.year, v, d.day, d.hour, d.minute, d.second⟩
def setDay (d : PyDateTime) (v : Nat) : PyDateTime := ⟨d.year, d.month, v, d.hour, d.minute, d.second⟩
def setHour (d : PyDateTime) (v : Nat) : PyDateTime := ⟨d.year, d.month, d.day, v, d.minute, d.second⟩
def setMinute (d : PyDateTime) (v : Nat) : PyDateTime := ⟨d.year, d.month, d.day, d.hour, v, d.second⟩
def setSecond (d : PyDateTime) (v : Nat) : PyDateTime := ⟨d.year, d.month, d.day, d.hour, d.minute, v⟩

/-- Consume one or two digits for a bounded `strptime` field, preferring the
two-digit reading when it is in range (CPython's alternation order). -/
def takeDigits2or1 (lo hi : Nat) : List Char → Option (Nat × List Char)
  | c1 :: c2 :: rest =>
    if c1.isDigit && c2.isDigit then
      if lo ≤ val2 c1 c2 ∧ val2 c1 c2 ≤ hi then some (val2 c1 c2, rest)
      else if lo ≤ c1.toNat - 48 ∧ c1.toNat - 48 ≤ hi then some (c1.toNat - 48, c2 :: rest)
      else none
    else if c1.isDigit then
      if lo ≤ c1.toNat - 48 ∧ c1.toNat - 48 ≤ hi then some (c1.toNat - 48, c2 :: rest)
      else none
    else none
  | [c1] =>
    if c1.isDigit then
      if lo ≤ c1.toNat - 48 ∧ c1.toNat - 48 ≤ hi then some (c1.toNat - 48, [])
      else none
    else none
  | [] => none

/-- Apply one `strptime` directive, returning the updated fields and the
unconsumed input; unsupported directives fail (`ValueError`). -/
def applyDirective (d : Char) (input : List Char) (acc : PyDateTime) :
    Option (PyDateTime × List Char) :=
  if d = 'Y' then
    match input with
    | y1 :: y2 :: y3 :: y4 :: rest =>
      if [y1, y2, y3, y4].all Char.isDigit then some (setYear acc (val4 y1 y2 y3 y4), rest)
      else none
    | _ => none
  else if d = 'm' then (takeDigits2or1 1 12 input).map (fun p => (setMonth acc p.1, p.2))
  else if d = 'd' then (takeDigits2or1 1 31 input).map (fun p => (setDay acc p.1, p.2))
  else if d = 'H' then (takeDigits2or1 0 23 input).map (fun p => (setHour acc p.1, p.2))
  else if d = 'M' then (takeDigits2or1 0 59 input).map (fun p => (setMinute acc p.1, p.2))
  else if d = 'S' then (takeDigits2or1 0 59 input).map (fun p => (setSecond acc p.1, p.2))
  else none

/-- The matching loop of `datetime.strptime` over format and input: literal
characters must match exactly; leftover input is an error. -/
def strptimeGo : List Char → List Char → PyDateTime → Option PyDateTime
  | [], [], acc => some acc
  | [], _ :: _, _ => none
  | '%' :: rest, input, acc =>
    match rest with
    | [] => none
    | d :: fs =>
      if d = '%' then
        match input with
        | c :: is2 => if c = '%' then strptimeGo fs is2 acc else none
        | [] => none
      else
        match applyDirective d input acc with
        | some (acc2, rest2) => strptimeGo fs rest2 acc2
        | none => none
  | f :: fs, input, acc =>
    match input with
    | c :: is2 => if f = c then strptimeGo fs is2 acc else none
    | [] => none

/-- Model of `datetime.strptime(input, fmt)` for the `%Y %m %d %H %M %S %%` directive
subset (defaults year 1900, month 1, day 1), with final calendar validation as
the datetime constructor performs. -/
def strptimeM (input fmt : List Char) : Option PyDateTime :=
  match strptimeGo fmt input ⟨1900, 1, 1, 0, 0, 0⟩ with
  | some d =>
    if validYMD d.year d.month d.day && validHMS d.hour d.minute d.second then some d
    else none
  | none => none

/-- The parse step of `_format_date`: `fromisoformat` under the `ISO8601`
input format tag, else `strptime` with the tag as pattern. -/
def parseDateValue (input_format : String) (s : String) : Option PyDateTime :=
  if input_format = "ISO8601" then parseIso s.data else strptimeM s.data input_format.data

def pad2 (n : Nat) : String :=
  if n < 10 then "0" ++ Nat.repr n else Nat.repr n

def pad4 (n : Nat) : String :=
  String.mk (List.replicate (4 - (Nat.repr n).length) '0' ++ (Nat.repr n).data)

/-- Model of `datetime.strftime` for the same directive subset; an unrecognised
directive is copied through unchanged. -/
def strftimeGo (d : PyDateTime) : List Char → List Char
  | [] => []
  | '%' :: rest =>
    match rest with
    | [] => ['%']
    | c :: fs =>
      (if c = 'm' then (pad2 d.month).data
       else if c = 'd' then (pad2 d.day).data
       else if c = 'Y' then (pad4 d.year).data
       else if c = 'H' then (pad2 d.hour).data
       else if c = 'M' then (pad2 d.minute).data
       else if c = 'S' then (pad2 d.second).data
       else if c = '%' then ['%']
       else ['%', c]) ++ strftimeGo d fs
  | c :: fs => c :: strftimeGo d fs

def strftimeM (d : PyDateTime) (fmt : String) : String :=
  String.mk (strftimeGo d fmt.data)

/-- Embedding of `TaxFormRenderer._format_date`: parse the value under the configured
input format, render under the output format.  `ValueError` from parsing is
caught (fallback `str(value)`); a non-string value raises `TypeError` from
`fromisoformat`/`strptime`, which is not in the `except (ValueError,
AttributeError)` list and propagates. -/
def _format_date (value : JValue) (params : FormatParams) : PyResult String :=
  match value with
  | .str s =>
    match parseDateValue params.input_format s with
    | some d =>
      if params.format = "MM/DD/YYYY" then .ok (strftimeM d "%m/%d/%Y")
      else if params.format = "DD/MM/YYYY" then .ok (strftimeM d "%d/%m/%Y")
      else if params.format = "YYYY-MM-DD" then .ok (strftimeM d "%Y-%m-%d")
      else .ok (strftimeM d params.format)
    | none => .ok (pyStr value)
  | _ => .raised

/-- Embedding of `TaxFormRenderer._format_percentage`: coerce to float (failure returns
"0.00%"), optionally multiply by 100, fixed-point format, optionally append
the percent sign. -/
def _format_percentage (value : JValue) (params : FormatParams) : String :=
  match pyFloat value with
  | none => "0.00%"
  | some num0 =>
    let num := if params.multiply_by_100 then num0 * 100 else num0
    let formatted := fixedPlain num params.decimal_places
    if params.show_symbol then formatted ++ "%" else formatted

/-- ASCII lower-casing (Python `str.lower()` restricted to ASCII). -/
def lowerChar (c : Char) : Char :=
  if 'A' ≤ c ∧ c ≤ 'Z' then Char.ofNat (c.toNat + 32) else c

def lowerStr (s : String) : String :=
  String.mk (s.data.map lowerChar)

/-- Embedding of `TaxFormRenderer._format_checkbox`: type-aware boolean coercion (bool
passthrough; strings via lowercase membership in true/yes/1/x; numbers via
nonzero; anything else unchecked), then the configured symbol. -/
def _format_checkbox (value : JValue) (params : FormatParams) : String :=
  let is_checked :=
    match value with
    | .bool b => b
    | .str s => decide (lowerStr s ∈ (["true", "yes", "1", "x"] : List String))
    | .int n => decide (n ≠ 0)
    | .float q => decide (q ≠ 0)
    | _ => false
  if is_checked then params.checked_symbol else params.unchecked_symbol

/-- A formatting rule: `format_type` tag plus parameters. -/
structure Formatting where
  format_type : String
  parameters : FormatParams

/-- Embedding of `TaxFormRenderer.format_value`: `None` formats to the empty string, an
absent rule to `str(value)`; otherwise dispatch on `format_type` with unknown
tags falling back to `str(value)`. -/
def format_value (value : JValue) (formatting : Option Formatting) : PyResult String :=
  match value with
  | .null => .ok ""
  | _ =>
    match formatting with
    | none => .ok (pyStr value)
    | some f =>
      if f.format_type = "currency" then .ok (_format_currency value f.parameters)
      else if f.format_type = "mask" then .ok (_format_mask value f.parameters)
      else if f.format_type = "date" then _format_date value f.parameters
      else if f.format_type = "percentage" then .ok (_format_percentage value f.parameters)
      else if f.format_type = "checkbox" then .ok (_format_checkbox value f.parameters)
      else .ok (pyStr value)

/-! ## Validator embedding (validate_value) -/

/-- A validation rule: `rule_type` tag, optional configured message, and the
parameters read by the four rule kinds, each with its `params.get` default
(`pattern` "", `min`/`max` absent, `min_length` 0, `max_length` unbounded). -/
structure ValidationRule where
  rule_type : String
  error_message : Option String
  pattern : String
  min : Option Rat
  max : Option Rat
  min_length : Nat
  max_length : Option Nat

/-- Python `value is None`. -/
def isNull : JValue → Bool
  | .null => true
  | _ => false

/-- Model of `re.match(pattern, s)` (anchored at the start) for patterns
built from literal characters, `.`, and the classes `\d` `\w` `\s`;
quantifiers, groups and anchors are not modelled (patterns using them are
read literally). -/
def reMatchAux : List Char → List Char → Bool
  | [], _ => true
  | p :: ps, cs =>
    if p = '\\' then
      match ps with
      | [] => false
      | d :: ps2 =>
        match cs with
        | [] => false
        | c :: cs2 =>
          (if d = 'd' then c.isDigit
           else if d = 'w' then c.isAlphanum || c = '_'
           else if d = 's' then isPySpace c
           else c = d) && reMatchAux ps2 cs2
    else if p = '.' then
      match cs with
      | [] => false
      | c :: cs2 => (c != '\n') && reMatchAux ps cs2
    else
      match cs with
      | [] => false
      | c :: cs2 => (p = c) && reMatchAux ps cs2

def reMatch (pattern s : String) : Bool :=
  reMatchAux pattern.data s.data

/-- The body of one iteration of the rule loop of `validate_value`: the
messages the rule appends.  The fallback message is
`"{rule_type} validation failed"`; a range rule whose `float(value)` coercion
fails appends the fixed coercion message instead.  A range rule checks its
two bounds independently (two separate `if` statements in the source). -/
def ruleMsgs (value : JValue) (validation : ValidationRule) : List String :=
  let rule_type := validation.rule_type
  let error_msg := validation.error_message.getD (rule_type ++ " validation failed")
  if rule_type = "required" then
    if isNull value || (stripEnds (pyStr value).data).isEmpty then [error_msg] else []
  else if rule_type = "regex" then
    if !reMatch validation.pattern (pyStr value) then [error_msg] else []
  else if rule_type = "range" then
    (pyFloat value).elim ["Value must be numeric for range validation"]
      (fun num =>
        validation.min.elim [] (fun m => if num < m then [error_msg] else []) ++
        validation.max.elim [] (fun M => if M < num then [error_msg] else []))
  else if rule_type = "length" then
    if !(decide (validation.min_length ≤ (pyStr value).length) &&
        validation.max_length.elim true (fun M => decide ((pyStr value).length ≤ M))) then
      [error_msg]
    else []
  else []

/-- Embedding of `TaxFormRenderer.validate_value`: every rule is evaluated in order and its
messages appended. -/
def validate_value (value : JValue) (validations : List ValidationRule) : List String :=
  validations.flatMap (ruleMsgs value)

/-- Modelled from the spec (section 4.3): the message a failed rule is claimed
to contribute — the fixed coercion message for a range rule on a non-numeric
value, otherwise the configured `error_message` with the generated fallback. -/
def claimedMessage (value : JValue) (r : ValidationRule) : String :=
  if r.rule_type = "range" ∧ pyFloat value = none then
    "Value must be numeric for range validation"
  else r.error_message.getD (r.rule_type ++ " validation failed")

def ssnMaskParams : FormatParams :=
  ⟨2, true, "$", ",", "parentheses", "XXX-XX-####", "MM/DD/YYYY", "ISO8601", true, true, "X", ""⟩

def c3RangeRule : ValidationRule := ⟨"range", some "custom range message", "", some 0, none, 0, none⟩

def c5ParensParams : FormatParams :=
  ⟨2, true, "$", ",", "parentheses", "", "MM/DD/YYYY", "ISO8601", true, true, "X", ""⟩
def c5MinusParams : FormatParams :=
  ⟨2, true, "$", ",", "minus", "", "MM/DD/YYYY", "ISO8601", true, true, "X", ""⟩
def c5DotSepParams : FormatParams :=
  ⟨2, true, "$", ".", "parentheses", "", "MM/DD/YYYY", "ISO8601", true, true, "X", ""⟩

/-! ## Layout engine embedding (_render_field) -/

/-- A drawing-surface call issued to the reportlab canvas. -/
inductive DrawOp where
  | setFont (family : String) (size : Rat)
  | setStrokeColorRGB (r g b : Rat)
  | setLineWidth (w : Rat)
  | rect (x y w h : Rat)
  | drawString (x y : Rat) (text : String)

/-- The observable outcome of rendering one field: the canvas calls issued
and the error/warning accumulators after the call. -/
structure RenderOut where
  ops : List DrawOp
  errors : List String
  warnings : List String

/-- A field annotation dictionary, with each `get` default from the source:
field_id "unknown", empty path, null default value, not required, no rules,
no formatting, position (0,0) in "absolute" coordinates, dimensions 100 by
20, padding top 0 right 2 bottom 0 left 2, Courier 10, left alignment,
"truncate" overflow, no character spacing, no max_length. -/
structure FieldSpec where
  field_id : String
  path : String
  default_value : JValue
  required : Bool
  validation : List ValidationRule
  formatting : Option Formatting
  x : Rat
  y : Rat
  coordinate_system : String
  width : Rat
  height : Rat
  padTop : Rat
  padRight : Rat
  padBottom : Rat
  padLeft : Rat
  font_family : String
  font_size : Rat
  alignment : String
  overflow_behavior : String
  character_spacing : Option Rat
  max_length : Option Nat

/-- The `font_map` lookup with default Courier. -/
def mapFont (ff : String) : String :=
  if ff = "Courier" ∨ ff = "Helvetica" ∨ ff = "Times-Roman" then ff else "Courier"

/-- Converted geometry of a field: percentage coordinates scaled by the page
size, then the y axis flipped (`y = page_height - y - height`). -/
structure Geom where
  x : Rat
  y : Rat
  width : Rat
  height : Rat

def convertGeom (field : FieldSpec) (pageW pageH : Rat) : Geom :=
  if field.coordinate_system = "percentage" then
    ⟨field.x / 100 * pageW,
     pageH - field.y / 100 * pageH - field.height / 100 * pageH,
     field.width / 100 * pageW,
     field.height / 100 * pageH⟩
  else
    ⟨field.x, pageH - field.y - field.height, field.width, field.height⟩

/-- The debug-box calls (light gray stroke around the field box). -/
def debugOps (show_debug : Bool) (g : Geom) : List DrawOp :=
  if show_debug then
    [.setStrokeColorRGB (4 / 5) (4 / 5) (4 / 5), .setLineWidth (1 / 2),
     .rect g.x g.y g.width g.height]
  else []

/-- The alignment anchor computation (identical before and after shrink):
left anchors at `x + padding.left`, right at `x + width - textWidth -
padding.right`, center at `x + (width - textWidth)/2`. -/
def alignAnchor (alignment : String) (x width padLeft padRight text_width : Rat) : Rat :=
  if alignment = "right" then x + width - text_width - padRight
  else if alignment = "center" then x + (width - text_width) / 2
  else x + padLeft

/-- Embedding of `TaxFormRenderer._render_character_spaced`: each character at increasing x
offsets of `spacing`, skipping literal `-` and space (which do not advance x
either). -/
def charSpacedOps (y spacing : Rat) : List Char → Rat → List DrawOp
  | [], _ => []
  | ch :: rest, x =>
    if ch ≠ '-' ∧ ch ≠ ' ' then
      .drawString x y (String.mk [ch]) :: charSpacedOps y spacing rest (x + spacing)
    else charSpacedOps y spacing rest x

/-- The aligned-text tail of `_render_field` (after font setup and the
character-spacing branch).  `uw text fam` is the width of `text` in font
`fam` at size 1; reportlab's `stringWidth` is linear in the font size, so the
measured width is `uw text fam * size`.  Dividing by a zero text width
raises `ZeroDivisionError`. -/
def renderTextPath (uw : String → String → Rat) (field : FieldSpec) (g : Geom)
    (fam : String) (size : Rat) (formatted : String) (ops0 : List DrawOp)
    (errors2 warnings : List String) : PyResult RenderOut :=
  let text_width := uw formatted fam * size
  let text_x := alignAnchor field.alignment g.x g.width field.padLeft field.padRight text_width
  let text_y := g.y + (g.height - size) / 2 + size * (3 / 10)
  if field.overflow_behavior = "shrink" ∧
      g.width - field.padLeft - field.padRight < text_width then
    if text_width = 0 then .raised
    else
      let scale := (g.width - field.padLeft - field.padRight) / text_width
      let new_size := size * scale * (95 / 100)
      let new_width := uw formatted fam * new_size
      let text_x2 := alignAnchor field.alignment g.x g.width field.padLeft field.padRight new_width
      .ok ⟨ops0 ++ [.setFont fam new_size, .drawString text_x2 text_y formatted],
        errors2, warnings⟩
  else if field.overflow_behavior = "truncate" then
    match field.max_length with
    | some ml =>
      if ml ≠ 0 ∧ formatted.length > ml then
        .ok ⟨ops0 ++ [.drawString text_x text_y (String.mk (formatted.data.take ml))],
          errors2,
          warnings ++ [field.field_id ++ ": Value truncated to " ++ Nat.repr ml ++ " characters"]⟩
      else .ok ⟨ops0 ++ [.drawString text_x text_y formatted], errors2, warnings⟩
    | none => .ok ⟨ops0 ++ [.drawString text_x text_y formatted], errors2, warnings⟩
  else .ok ⟨ops0 ++ [.drawString text_x text_y formatted], errors2, warnings⟩

/-- The drawing tail of `_render_field` once a value passed the skip and
validation gates: format (may raise), set the font, optional debug box, then
either character-spaced rendering (a truthy spacing) or the aligned path. -/
def renderValue (uw : String → String → Rat) (pageW pageH : Rat) (show_debug : Bool)
    (field : FieldSpec) (value : JValue) (errors2 warnings : List String) :
    PyResult RenderOut :=
  match format_value value field.formatting with
  | .raised => .raised
  | .ok formatted =>
    let g := convertGeom field pageW pageH
    let fam := mapFont field.font_family
    let ops0 := DrawOp.setFont fam field.font_size :: debugOps show_debug g
    match field.character_spacing with
    | some spacing =>
      if spacing ≠ 0 then
        .ok ⟨ops0 ++ charSpacedOps (g.y + g.height / 2) spacing formatted.data
          (g.x + field.padLeft), errors2, warnings⟩
      else renderTextPath uw field g fam field.font_size formatted ops0 errors2 warnings
    | none => renderTextPath uw field g fam field.font_size formatted ops0 errors2 warnings

/-- Embedding of `TaxFormRenderer._render_field`: resolve the value; skip when absent and
not required; validate, recording prefixed messages and skipping drawing for
a required field with failures; then draw. -/
def _render_field (uw : String → String → Rat) (pageW pageH : Rat) (data : JValue)
    (show_debug : Bool) (field : FieldSpec) (errors warnings : List String) :
    PyResult RenderOut :=
  match resolve_value_reference data field.path field.default_value with
  | .raised => .raised
  | .ok value =>
    if isNull value && !field.required then .ok ⟨[], errors, warnings⟩
    else
      let validation_errors := validate_value value field.validation
      if validation_errors ≠ [] then
        let errors2 := errors ++ validation_errors.map (fun e => field.field_id ++ ": " ++ e)
        if field.required then .ok ⟨[], errors2, warnings⟩
        else renderValue uw pageW pageH show_debug field value errors2 warnings
      else renderValue uw pageW pageH show_debug field value errors warnings

/-- Courier metrics: every glyph is 600/1000 em wide, so width at size 1 is
`0.6 * length`. -/
def courierUw (text : String) (_fam : String) : Rat :=
  (3 / 5) * text.length

def c9ReqField : FieldSpec :=
  ⟨"f1", "missing", .null, true, [⟨"required", none, "", none, none, 0, none⟩], none,
   0, 0, "absolute", 100, 20, 0, 2, 0, 2, "Courier", 10, "left", "truncate", none, none⟩

def c8NegField : FieldSpec :=
  ⟨"f8", "t", .null, false, [], none, 0, 0, "absolute", 100, 20, 0, 60, 0, 60,
   "Courier", 10, "left", "shrink", none, none⟩

def c8WitField : FieldSpec :=
  ⟨"f8w", "t", .null, false, [], none, 0, 0, "absolute", 100, 20, 0, 2, 0, 2,
   "Courier", 10, "left", "shrink", none, none⟩

/-! ## Theorems -/

/-! ## Helper lemmas about the resolver -/

theorem takeWhile_append_all (p : Char → Bool) (l1 l2 : List Char)
    (h : ∀ c ∈ l1, p c = true) :
    (l1 ++ l2).takeWhile p = l1 ++ l2.takeWhile p := by
  induction l1 with
  | nil => simp
  | cons c cs ih =>
    simp only [List.cons_append, List.takeWhile_cons, h c (by simp)]
    simpa using ih (fun x hx => h x (by simp [hx]))

theorem takeWhile_cons_false (p : Char → Bool) (c : Char) (l : List Char)
    (h : p c = false) : (c :: l).takeWhile p = [] := by
  simp [List.takeWhile_cons, h]

theorem dropWhile_all_false (p : Char → Bool) (l : List Char)
    (h : ∀ c ∈ l, p c = false) : l.dropWhile p = l := by
  cases l with
  | nil => rfl
  | cons c cs => simp [List.dropWhile_cons, h c (by simp)]

theorem stripEnds_of_no_space (l : List Char)
    (h : ∀ c ∈ l, isPySpace c = false) : stripEnds l = l := by
  unfold stripEnds
  rw [dropWhile_all_false _ _ h, dropWhile_all_false, List.reverse_reverse]
  intro c hc
  exact h c (List.mem_reverse.mp hc)

theorem isPySpace_of_isDigit (c : Char) (h : c.isDigit = true) :
    isPySpace c = false := by
  simp only [isPySpace, Bool.or_eq_false_iff, decide_eq_false_iff_not]
  refine ⟨⟨⟨⟨⟨?_, ?_⟩, ?_⟩, ?_⟩, ?_⟩, ?_⟩ <;> rintro rfl <;> exact absurd h (by decide)

theorem ne_dash_of_isDigit (c : Char) (h : c.isDigit = true) : c ≠ '-' := by
  rintro rfl; exact absurd h (by decide)

theorem ne_plus_of_isDigit (c : Char) (h : c.isDigit = true) : c ≠ '+' := by
  rintro rfl; exact absurd h (by decide)

theorem parseDigits_all_digits (ds : List Char) (hne : ds ≠ [])
    (hd : ∀ c ∈ ds, c.isDigit = true) : parseDigits ds = some (digitsVal ds) := by
  unfold parseDigits
  rw [if_pos]
  simp only [Bool.and_eq_true, ne_eq, decide_eq_true_iff, List.all_eq_true]
  exact ⟨hne, hd⟩

theorem parsePyInt_all_digits (ds : List Char) (hne : ds ≠ [])
    (hd : ∀ c ∈ ds, c.isDigit = true) :
    parsePyInt ds = some ((digitsVal ds : Nat) : Int) := by
  unfold parsePyInt
  rw [stripEnds_of_no_space ds (fun c hc => isPySpace_of_isDigit c (hd c hc))]
  cases ds with
  | nil => exact absurd rfl hne
  | cons c cs =>
    have h1 : c ≠ '-' := ne_dash_of_isDigit c (hd c (by simp))
    have h2 : c ≠ '+' := ne_plus_of_isDigit c (hd c (by simp))
    simp [if_neg h1, if_neg h2, parseDigits_all_digits _ hne hd]

theorem contains_eq_false_of_ne (l : List Char) (c : Char) (h : ∀ x ∈ l, x ≠ c) :
    l.contains c = false := by
  induction l with
  | nil => rfl
  | cons x xs ih =>
    simp only [List.contains_cons, Bool.or_eq_false_iff, beq_eq_false_iff_ne]
    exact ⟨(h x (by simp)).symm, ih (fun y hy => h y (by simp [hy]))⟩

theorem bracketBase_indexed (b ds : List Char) (hb : ∀ c ∈ b, c ≠ '[') :
    bracketBase (b ++ '[' :: (ds ++ [']'])) = b := by
  unfold bracketBase
  rw [takeWhile_append_all _ _ _ (fun c hc => by simp [bne_iff_ne, hb c hc]),
    takeWhile_cons_false _ _ _ (by decide), List.append_nil]

theorem bracketIdxStr_indexed (b ds : List Char) (hb : ∀ c ∈ b, c ≠ '[' ∧ c ≠ ']')
    (hd : ∀ c ∈ ds, c.isDigit = true) :
    bracketIdxStr (b ++ '[' :: (ds ++ [']'])) = ds := by
  have hds : ∀ c ∈ ds, c ≠ ']' := by
    intro c hc
    rintro rfl
    exact absurd (hd _ hc) (by decide)
  have htw1 : (b ++ '[' :: (ds ++ [']'])).takeWhile (fun c => c != ']') = b ++ '[' :: ds := by
    rw [show b ++ '[' :: (ds ++ [']']) = (b ++ '[' :: ds) ++ [']'] from by simp,
      takeWhile_append_all _ _ _ ?hall, takeWhile_cons_false _ _ _ (by decide),
      List.append_nil]
    case hall =>
      intro c hc
      rcases List.mem_append.mp hc with hcb | hcd
      · simp [bne_iff_ne, (hb c hcb).2]
      · rcases List.mem_cons.mp hcd with rfl | hcd
        · decide
        · simp [bne_iff_ne, hds c hcd]
  have htw2 : (b ++ '[' :: (ds ++ [']'])).takeWhile (fun c => c != '[') = b := by
    rw [takeWhile_append_all _ _ _ (fun c hc => by simp [bne_iff_ne, (hb c hc).1]),
      takeWhile_cons_false _ _ _ (by decide), List.append_nil]
  unfold bracketIdxStr
  rw [htw1, htw2, ← List.drop_drop, List.drop_left]
  rfl

theorem keyHasBrackets_plain (b : List Char) (hb : ∀ c ∈ b, c ≠ '[' ∧ c ≠ ']') :
    keyHasBrackets b = false := by
  unfold keyHasBrackets
  rw [contains_eq_false_of_ne b '[' (fun x hx => (hb x hx).1)]
  rfl

theorem keyHasBrackets_indexed (b ds : List Char) :
    keyHasBrackets (b ++ '[' :: (ds ++ [']'])) = true := by
  have h1 : '[' ∈ b ++ '[' :: (ds ++ [']']) := by simp
  have h2 : ']' ∈ b ++ '[' :: (ds ++ [']']) := by simp
  simp only [keyHasBrackets, Bool.and_eq_true]
  exact ⟨List.elem_eq_true_of_mem h1, List.elem_eq_true_of_mem h2⟩

theorem stepKey_ne_raised (d : JValue) (k : List Char)
    (h : keyHasBrackets k = true → parsePyInt (bracketIdxStr k) ≠ none) :
    stepKey d k ≠ TravResult.raised := by
  unfold stepKey
  split
  · rename_i hb
    cases hp : parsePyInt (bracketIdxStr k) with
    | none => exact absurd hp (h hb)
    | some idx =>
      cases d <;> try simp
      rename_i kvs
      split
      · split <;> simp
      · split <;> simp
      · simp
  · cases d <;> simp

theorem resolveLoop_cons_found (d w : JValue) (k : List Char) (ks : List (List Char))
    (h1 : stepKey d k = .found w) (h2 : w ≠ .null) :
    resolveLoop d (k :: ks) = resolveLoop w ks := by
  cases w <;> simp [resolveLoop, h1] at h2 ⊢

theorem resolveLoop_ne_raised (keys : List (List Char)) (data : JValue)
    (h : ∀ key ∈ keys, keyHasBrackets key = true → parsePyInt (bracketIdxStr key) ≠ none) :
    resolveLoop data keys ≠ TravResult.raised := by
  induction keys generalizing data with
  | nil => exact fun hc => TravResult.noConfusion hc
  | cons key rest ih =>
    cases hs : stepKey data key with
    | raised => exact absurd hs (stepKey_ne_raised data key (h key (by simp)))
    | miss => simp [resolveLoop, hs]
    | found w =>
      by_cases hw : w = JValue.null
      · subst hw
        simp [resolveLoop, hs]
      · rw [resolveLoop_cons_found data w key rest hs hw]
        exact ih _ (fun key2 hk => h key2 (by simp [hk]))

theorem pySplit_ne_nil (sep : Char) (cs : List Char) : pySplit sep cs ≠ [] := by
  cases cs with
  | nil => simp [pySplit]
  | cons c cx =>
    unfold pySplit
    split
    · simp
    · split <;> simp

theorem validSeg_plain (b : List Char) (h : validSeg (.plain b) = true) :
    b ≠ [] ∧ ∀ c ∈ b, c ≠ '[' ∧ c ≠ ']' := by
  simp only [validSeg, Bool.and_eq_true, Bool.not_eq_true', List.isEmpty_eq_false_iff_exists_mem,
    List.all_eq_true, bne_iff_ne, ne_eq] at h
  obtain ⟨h1, h2⟩ := h
  refine ⟨?_, fun c hc => h2 c hc⟩
  obtain ⟨x, hx⟩ := h1
  intro hb
  subst hb
  exact absurd hx (List.not_mem_nil x)

theorem validSeg_indexed (b ds : List Char) (h : validSeg (.indexed b ds) = true) :
    (b ≠ [] ∧ ∀ c ∈ b, c ≠ '[' ∧ c ≠ ']') ∧ ds ≠ [] ∧ ∀ c ∈ ds, c.isDigit = true := by
  simp only [validSeg, Bool.and_eq_true, Bool.not_eq_true', List.isEmpty_eq_false_iff_exists_mem,
    List.all_eq_true, bne_iff_ne, ne_eq] at h
  obtain ⟨⟨h1, h2⟩, h3, h4⟩ := h
  refine ⟨⟨?_, fun c hc => h2 c hc⟩, ?_, h4⟩
  · obtain ⟨x, hx⟩ := h1
    intro hb
    subst hb
    exact absurd hx (List.not_mem_nil x)
  · obtain ⟨x, hx⟩ := h3
    intro hb
    subst hb
    exact absurd hx (List.not_mem_nil x)

theorem specLookup_cons_ne_null (w : JValue) (s : SpecSeg) (ss : List SpecSeg)
    (v : JValue) (h : specLookup w (s :: ss) = some v) : w ≠ JValue.null := by
  intro hw
  subst hw
  cases s
  · exact Option.noConfusion h
  · exact Option.noConfusion h

theorem resolveLoop_of_specLookup (segs : List SpecSeg) (data v : JValue)
    (hval : ∀ s ∈ segs, validSeg s = true) (hlook : specLookup data segs = some v)
    (hv : v ≠ JValue.null) :
    resolveLoop data (segs.map renderSeg) = .found v := by
  induction segs generalizing data with
  | nil =>
    rw [List.map_nil]
    cases data <;> exact congrArg TravResult.found (Option.some.inj hlook)
  | cons s rest ih =>
    have hwnull : ∀ w : JValue, specLookup w rest = some v → w ≠ JValue.null := by
      intro w hlw
      cases rest with
      | nil =>
        intro hww
        subst hww
        exact hv (Option.some.inj hlw).symm
      | cons s2 ss2 => exact specLookup_cons_ne_null _ _ _ _ hlw
    cases data with
    | obj kvs =>
      cases s with
      | plain b =>
        obtain ⟨hbne, hbchars⟩ := validSeg_plain b (hval _ (by simp))
        cases hl : lookupKvs kvs (String.mk b) with
        | none =>
          simp only [specLookup, hl] at hlook
          exact Option.noConfusion hlook
        | some w =>
          simp only [specLookup, hl] at hlook
          have hw := hwnull w hlook
          have hstep : stepKey (JValue.obj kvs) b = .found w := by
            unfold stepKey
            rw [if_neg (by rw [keyHasBrackets_plain b hbchars]; exact Bool.false_ne_true)]
            show TravResult.found ((lookupKvs kvs (String.mk b)).getD JValue.null) =
              TravResult.found w
            rw [hl]
            rfl
          rw [List.map_cons, show renderSeg (SpecSeg.plain b) = b from rfl,
            resolveLoop_cons_found _ _ _ _ hstep hw]
          exact ih _ (fun s2 hs2 => hval s2 (by simp [hs2])) hlook
      | indexed b ds =>
        obtain ⟨⟨hbne, hbchars⟩, hdne, hdigits⟩ := validSeg_indexed b ds (hval _ (by simp))
        cases hl : lookupKvs kvs (String.mk b) with
        | none =>
          simp only [specLookup, hl] at hlook
          exact Option.noConfusion hlook
        | some w0 =>
          cases w0 with
          | arr xs =>
            cases hg : xs.get? (digitsVal ds) with
            | none =>
              simp only [specLookup, hl, hg] at hlook
              exact Option.noConfusion hlook
            | some w =>
              simp only [specLookup, hl, hg] at hlook
              have hw := hwnull w hlook
              have hidx : pyIndexList xs ((digitsVal ds : Nat) : Int) = xs.get? (digitsVal ds) := by
                unfold pyIndexList
                rw [if_pos (Int.natCast_nonneg _), Int.toNat_natCast]
              have hstep : stepKey (JValue.obj kvs) (renderSeg (.indexed b ds)) = .found w := by
                unfold stepKey
                rw [show renderSeg (.indexed b ds) = b ++ '[' :: (ds ++ [']']) from rfl]
                rw [if_pos (keyHasBrackets_indexed b ds)]
                rw [bracketIdxStr_indexed b ds hbchars hdigits,
                  parsePyInt_all_digits ds hdne hdigits,
                  bracketBase_indexed b ds (fun c hc => (hbchars c hc).1)]
                show (match (lookupKvs kvs (String.mk b)).getD (JValue.arr []) with
                  | JValue.arr xs2 =>
                    (match pyIndexList xs2 ((digitsVal ds : Nat) : Int) with
                     | some v2 => TravResult.found v2
                     | none => TravResult.miss)
                  | JValue.str s2 =>
                    (match pyIndexStr s2 ((digitsVal ds : Nat) : Int) with
                     | some c2 => TravResult.found (JValue.str (String.mk [c2]))
                     | none => TravResult.miss)
                  | _ => TravResult.miss) = TravResult.found w
                rw [hl]
                show (match pyIndexList xs ((digitsVal ds : Nat) : Int) with
                  | some v2 => TravResult.found v2
                  | none => TravResult.miss) = TravResult.found w
                rw [hidx, hg]
              rw [List.map_cons, resolveLoop_cons_found _ _ _ _ hstep hw]
              exact ih _ (fun s2 hs2 => hval s2 (by simp [hs2])) hlook
          | null =>
            simp only [specLookup, hl] at hlook
            exact Option.noConfusion hlook
          | bool b2 =>
            simp only [specLookup, hl] at hlook
            exact Option.noConfusion hlook
          | int n =>
            simp only [specLookup, hl] at hlook
            exact Option.noConfusion hlook
          | float q =>
            simp only [specLookup, hl] at hlook
            exact Option.noConfusion hlook
          | str s2 =>
            simp only [specLookup, hl] at hlook
            exact Option.noConfusion hlook
          | obj kvs2 =>
            simp only [specLookup, hl] at hlook
            exact Option.noConfusion hlook
    | null => cases s <;> exact Option.noConfusion hlook
    | bool b2 => cases s <;> exact Option.noConfusion hlook
    | int n => cases s <;> exact Option.noConfusion hlook
    | float q => cases s <;> exact Option.noConfusion hlook
    | str s2 => cases s <;> exact Option.noConfusion hlook
    | arr xs => cases s <;> exact Option.noConfusion hlook

theorem resolveLoop_miss_of_reaches (v u : JValue) (ks ls : List (List Char))
    (h : Reaches v ks u ls) (hm : resolveLoop u ls = .miss) :
    resolveLoop v ks = .miss := by
  induction h with
  | refl => exact hm
  | step v w u k ks ls h1 h2 _ ih =>
    rw [resolveLoop_cons_found v w k ks h1 h2]
    exact ih hm

/-- C1 counterexample: claim C1 states that `resolve_value_reference` never
raises; but on path `a[x]` (a bracketed segment whose subscript text is not an
integer) the call `int("x")` raises `ValueError`, which is absent from the
`except (KeyError, IndexError, TypeError, AttributeError)` list and so
propagates to the caller. -/
theorem C1_counterexample :
    resolve_value_reference (.obj [("a", .arr [.int 1])]) "a[x]" (.int 0) =
      PyResult.raised := rfl

/-- C1 (amended): for every root document, path string and default value,
provided every bracketed segment of the path carries integer subscript text,
`resolve_value_reference` raises no error: it returns some value, and whenever
the traversal fails it returns the given default, the failure signalled only
by that return value. -/
theorem C1_resolution_failures_are_silent (data : JValue) (path : String)
    (default : JValue) (h : wellFormedPath path) :
    (∃ r, resolve_value_reference data path default = .ok r) ∧
    (resolveLoop data (pySplit '.' path.data) = .miss →
      resolve_value_reference data path default = .ok default) := by
  unfold resolve_value_reference
  by_cases hp : path = ""
  · rw [if_pos hp]
    exact ⟨⟨default, rfl⟩, fun _ => rfl⟩
  · rw [if_neg hp]
    cases hr : resolveLoop data (pySplit '.' path.data) with
    | found v => exact ⟨⟨v, rfl⟩, fun hm => by simp [hr] at hm⟩
    | miss => exact ⟨⟨default, rfl⟩, fun _ => rfl⟩
    | raised => exact absurd hr (resolveLoop_ne_raised _ data h)

/-- C1 witness: a concrete well-formed path on which the amended claim applies
and yields a non-raising resolution. -/
theorem C1_witness :
    ∃ r, resolve_value_reference (.obj [("a", .arr [.int 1])]) "a[0]" (.int 9) =
      PyResult.ok r :=
  (C1_resolution_failures_are_silent (.obj [("a", .arr [.int 1])]) "a[0]" (.int 9)
    (by
      intro key hk hb
      rw [show pySplit '.' "a[0]".data = ["a[0]".data] from rfl] at hk
      rw [List.mem_singleton.mp hk]
      decide)).1

/-- C2: for every valid dotted/indexed path whose referenced (non-null) value
is present in the data document, `resolve_value_reference` returns exactly
that nested value; in particular resolving `income.wages[0].amount` with
default `0` against `(income (wages ((amount 50000))))` returns `50000`, and
against `(income ())` returns `0`. -/
theorem C2_resolve_returns_present_values :
    (∀ (data : JValue) (path : String) (default : JValue) (segs : List SpecSeg)
        (v : JValue),
        pySplit '.' path.data = segs.map renderSeg →
        (∀ s ∈ segs, validSeg s = true) →
        specLookup data segs = some v → v ≠ JValue.null →
        resolve_value_reference data path default = .ok v) ∧
    resolve_value_reference
      (.obj [("income", .obj [("wages", .arr [.obj [("amount", .int 50000)]])])])
      "income.wages[0].amount" (.int 0) = .ok (.int 50000) ∧
    resolve_value_reference (.obj [("income", .obj [])])
      "income.wages[0].amount" (.int 0) = .ok (.int 0) := by
  refine ⟨?_, rfl, rfl⟩
  intro data path default segs v hsplit hval hlook hv
  have hne : path ≠ "" := by
    intro hpe
    subst hpe
    have hmap : segs.map renderSeg = [[]] := by rw [← hsplit]; rfl
    cases segs with
    | nil => exact List.noConfusion hmap
    | cons s srest =>
      rw [List.map_cons] at hmap
      have hs0 : renderSeg s = [] := (List.cons.inj hmap).1
      cases s with
      | plain b =>
        obtain ⟨hbne, _⟩ := validSeg_plain b (hval _ (by simp))
        exact hbne hs0
      | indexed b ds =>
        rw [show renderSeg (.indexed b ds) = b ++ '[' :: (ds ++ [']']) from rfl] at hs0
        rcases List.append_eq_nil.mp hs0 with ⟨_, hcons⟩
        exact List.noConfusion hcons
  unfold resolve_value_reference
  rw [if_neg hne, hsplit, resolveLoop_of_specLookup segs data v hval hlook hv]

/-- C2 witness: the general clause of C2 applied to a concrete document and
path, with every hypothesis discharged concretely. -/
theorem C2_witness :
    resolve_value_reference (.obj [("taxpayer", .obj [("age", .int 44)])])
      "taxpayer.age" (.int 0) = .ok (.int 44) :=
  C2_resolve_returns_present_values.1 _ "taxpayer.age" _
    [.plain "taxpayer".data, .plain "age".data] (.int 44) rfl (by decide) rfl
    (by intro h; exact JValue.noConfusion h)

/-- C10: whenever the key loop reaches a mapping in which the next (plain)
key is either stored with an explicit null value or absent altogether,
`resolve_value_reference` returns the default, so a caller cannot distinguish
a key mapped to null from a missing key. -/
theorem C10_null_indistinguishable_from_missing (data : JValue) (path : String)
    (default : JValue) (kvs : List (String × JValue)) (key : List Char)
    (rest : List (List Char)) (hne : path ≠ "")
    (hr : Reaches data (pySplit '.' path.data) (.obj kvs) (key :: rest))
    (hb : keyHasBrackets key = false)
    (hnull : lookupKvs kvs (String.mk key) = some JValue.null ∨
      lookupKvs kvs (String.mk key) = none) :
    resolve_value_reference data path default = .ok default := by
  have hstep : stepKey (JValue.obj kvs) key = .found JValue.null := by
    unfold stepKey
    rw [if_neg (by rw [hb]; exact Bool.false_ne_true)]
    show TravResult.found ((lookupKvs kvs (String.mk key)).getD JValue.null) = _
    rcases hnull with hn | hn <;> rw [hn] <;> rfl
  have hmiss : resolveLoop (JValue.obj kvs) (key :: rest) = .miss := by
    simp [resolveLoop, hstep]
  have hloop := resolveLoop_miss_of_reaches _ _ _ _ hr hmiss
  unfold resolve_value_reference
  rw [if_neg hne, hloop]

/-- C10 witness: a document storing an explicit null under the looked-up key
resolves to the default. -/
theorem C10_witness :
    resolve_value_reference (.obj [("a", .null)]) "a" (.int 7) = .ok (.int 7) :=
  C10_null_indistinguishable_from_missing (.obj [("a", .null)]) "a" (.int 7)
    [("a", .null)] "a".data [] (by decide) (Reaches.refl _ _) (by decide)
    (Or.inl rfl)

theorem ruleMsgs_all_claimed (value : JValue) (r : ValidationRule) :
    ∀ msg ∈ ruleMsgs value r, msg = claimedMessage value r := by
  intro msg hmsg
  unfold ruleMsgs at hmsg
  unfold claimedMessage
  by_cases h1 : r.rule_type = "required"
  · rw [if_pos h1] at hmsg
    rw [if_neg (by rw [h1]; rintro ⟨hc, -⟩; exact absurd hc (by decide))]
    split at hmsg
    · exact List.mem_singleton.mp hmsg
    · exact absurd hmsg (List.not_mem_nil msg)
  · rw [if_neg h1] at hmsg
    by_cases h2 : r.rule_type = "regex"
    · rw [if_pos h2] at hmsg
      rw [if_neg (by rw [h2]; rintro ⟨hc, -⟩; exact absurd hc (by decide))]
      split at hmsg
      · exact List.mem_singleton.mp hmsg
      · exact absurd hmsg (List.not_mem_nil msg)
    · rw [if_neg h2] at hmsg
      by_cases h3 : r.rule_type = "range"
      · rw [if_pos h3] at hmsg
        cases hf : pyFloat value with
        | none =>
          rw [hf, Option.elim_none] at hmsg
          rw [if_pos ⟨h3, rfl⟩]
          exact List.mem_singleton.mp hmsg
        | some q =>
          rw [hf, Option.elim_some] at hmsg
          rw [if_neg (by rintro ⟨-, hc⟩; exact Option.noConfusion hc)]
          rcases List.mem_append.mp hmsg with hm | hm
          · cases hmin : r.min with
            | none => rw [hmin, Option.elim_none] at hm; exact absurd hm (List.not_mem_nil msg)
            | some m =>
              rw [hmin, Option.elim_some] at hm
              split at hm
              · exact List.mem_singleton.mp hm
              · exact absurd hm (List.not_mem_nil msg)
          · cases hmax : r.max with
            | none => rw [hmax, Option.elim_none] at hm; exact absurd hm (List.not_mem_nil msg)
            | some M =>
              rw [hmax, Option.elim_some] at hm
              split at hm
              · exact List.mem_singleton.mp hm
              · exact absurd hm (List.not_mem_nil msg)
      · rw [if_neg h3] at hmsg
        rw [if_neg (by rintro ⟨hc, -⟩; exact h3 hc)]
        by_cases h4 : r.rule_type = "length"
        · rw [if_pos h4] at hmsg
          split at hmsg
          · exact List.mem_singleton.mp hmsg
          · exact absurd hmsg (List.not_mem_nil msg)
        · rw [if_neg h4] at hmsg
          exact absurd hmsg (List.not_mem_nil msg)

theorem validate_single (value : JValue) (r : ValidationRule) :
    validate_value value [r] = ruleMsgs value r := by
  simp [validate_value]

theorem validate_value_flatMap (value : JValue) (rules : List ValidationRule) :
    validate_value value rules = rules.flatMap (fun r => validate_value value [r]) := by
  unfold validate_value
  simp

theorem ruleMsgs_length (value : JValue) (r : ValidationRule) :
    (ruleMsgs value r).length ≤ 2 ∧
    ((ruleMsgs value r).length = 2 →
      r.rule_type = "range" ∧ ∃ q m M, pyFloat value = some q ∧ r.min = some m ∧
        r.max = some M ∧ q < m ∧ M < q) := by
  unfold ruleMsgs
  by_cases h1 : r.rule_type = "required"
  · rw [if_pos h1]
    split
    · exact ⟨by simp, by simp⟩
    · exact ⟨by simp, by simp⟩
  · rw [if_neg h1]
    by_cases h2 : r.rule_type = "regex"
    · rw [if_pos h2]
      split
      · exact ⟨by simp, by simp⟩
      · exact ⟨by simp, by simp⟩
    · rw [if_neg h2]
      by_cases h3 : r.rule_type = "range"
      · rw [if_pos h3]
        cases hf : pyFloat value with
        | none => rw [Option.elim_none]; exact ⟨by simp, by simp⟩
        | some q =>
          rw [Option.elim_some]
          cases hmin : r.min with
          | none =>
            rw [Option.elim_none, List.nil_append]
            cases hmax : r.max with
            | none => rw [Option.elim_none]; exact ⟨by simp, by simp⟩
            | some M =>
              rw [Option.elim_some]
              split
              · exact ⟨by simp, by simp⟩
              · exact ⟨by simp, by simp⟩
          | some m =>
            rw [Option.elim_some]
            cases hmax : r.max with
            | none =>
              rw [Option.elim_none, List.append_nil]
              split
              · exact ⟨by simp, by simp⟩
              · exact ⟨by simp, by simp⟩
            | some M =>
              rw [Option.elim_some]
              by_cases ha : q < m
              · rw [if_pos ha]
                by_cases hb : M < q
                · rw [if_pos hb]
                  exact ⟨by simp, fun _ => ⟨h3, q, m, M, rfl, rfl, rfl, ha, hb⟩⟩
                · rw [if_neg hb]
                  exact ⟨by simp, by simp⟩
              · rw [if_neg ha]
                by_cases hb : M < q
                · rw [if_pos hb]
                  exact ⟨by simp, by simp⟩
                · rw [if_neg hb]
                  exact ⟨by simp, by simp⟩
      · rw [if_neg h3]
        by_cases h4 : r.rule_type = "length"
        · rw [if_pos h4]
          split
          · exact ⟨by simp, by simp⟩
          · exact ⟨by simp, by simp⟩
        · rw [if_neg h4]
          exact ⟨by simp, by simp⟩

theorem drop_eq_getD_cons (l : List Char) (i : Nat) (h : i < l.length) :
    l.drop i = l.getD i ' ' :: l.drop (i + 1) := by
  induction l generalizing i with
  | nil => simp at h
  | cons c cs ih =>
    cases i with
    | zero => simp [List.getD]
    | succ j =>
      simp only [List.drop_succ_cons, List.getD_cons_succ]
      exact ih j (by simpa using h)

theorem maskAux_eq_maskWalk (src ps : List Char) :
    ∀ i, maskAux src ps i = maskWalk ps (src.drop i) := by
  induction ps with
  | nil => intro i; rfl
  | cons c ps ih =>
    intro i
    by_cases hc : c = '#' ∨ c = 'X'
    · by_cases hi : i < src.length
      · rw [drop_eq_getD_cons src i hi]
        simp [maskAux, maskWalk, hc, hi, ih]
      · have hd : src.drop i = [] := List.drop_eq_nil_of_le (Nat.le_of_not_lt hi)
        rw [hd]
        simp only [maskAux, maskWalk, hc, hi, if_true, if_false]
        rw [ih i, hd]
    · simp [maskAux, maskWalk, hc, ih]

/-- C6: for every value and mask pattern, `_format_mask` first strips all `-`
and space characters from the stringified value, then walks the pattern left
to right: each `#` or `X` consumes the next unconsumed source character, every
other pattern character is copied literally, and exhausted source omits the
remaining placeholders; `123456789` under `XXX-XX-####` yields `123-45-6789`
and a 7-digit input yields `123-45-67`. -/
theorem C6_mask_formatting :
    (∀ (value : JValue) (params : FormatParams),
        _format_mask value params =
          String.mk (maskWalk params.pattern.data
            ((pyStr value).data.filter (fun c => c != '-' && c != ' ')))) ∧
    _format_mask (.str "123456789") ssnMaskParams = "123-45-6789" ∧
    _format_mask (.str "1234567") ssnMaskParams = "123-45-67" := by
  refine ⟨fun value params => ?_, rfl, rfl⟩
  simp only [_format_mask]
  rw [maskAux_eq_maskWalk, List.drop_zero]

/-- C3: validation decomposes per rule in order, and every message a rule
contributes is its configured `error_message`, the generated
`"{rule_type} validation failed"` fallback when none was configured, or — for
a range rule on a value whose float coercion fails — exactly the fixed
coercion-failure message regardless of the configured message
(`claimedMessage` states this selection). -/
theorem C3_failure_message_selection (value : JValue) (rules : List ValidationRule) :
    validate_value value rules = rules.flatMap (fun r => validate_value value [r]) ∧
    ∀ r ∈ rules, ∀ msg ∈ validate_value value [r], msg = claimedMessage value r := by
  refine ⟨validate_value_flatMap value rules, fun r _ msg hmsg => ?_⟩
  rw [validate_single] at hmsg
  exact ruleMsgs_all_claimed value r msg hmsg

/-- C3 witness: the selection rule applied to a concrete range rule with a
configured custom message on non-numeric input. -/
theorem C3_witness :
    "Value must be numeric for range validation" = claimedMessage (.str "abc") c3RangeRule :=
  (C3_failure_message_selection (.str "abc") [c3RangeRule]).2 c3RangeRule (by simp)
    "Value must be numeric for range validation"
    (by
      rw [show validate_value (.str "abc") [c3RangeRule] =
        ["Value must be numeric for range validation"] from rfl]
      exact List.mem_singleton_self _)

/-- C7 counterexample: a single range rule whose min (10) exceeds its max (0)
appends its message twice for the value 5 — two messages from one failed
rule, contradicting "exactly one message per failed rule". -/
theorem C7_counterexample :
    validate_value (.int 5) [⟨"range", some "range bad", "", some 10, some 0, 0, none⟩] =
      ["range bad", "range bad"] := by with_unfolding_all rfl

/-- C7 (amended): `validate_value` evaluates every rule in order with no
short-circuiting (the output is the in-order concatenation of each rule's
messages), and each failed rule contributes exactly one message except a
range rule whose value lies below its min and above its max simultaneously
(possible only when min > max), which contributes two; for rules
`[required, regex]` on an empty value both messages appear in that order. -/
theorem C7_rule_evaluation_amended (value : JValue) (rules : List ValidationRule) :
    validate_value value rules = rules.flatMap (fun r => validate_value value [r]) ∧
    (∀ r : ValidationRule, (validate_value value [r]).length ≤ 2 ∧
      ((validate_value value [r]).length = 2 → r.rule_type = "range" ∧
        ∃ q m M, pyFloat value = some q ∧ r.min = some m ∧ r.max = some M ∧
          q < m ∧ M < q)) ∧
    validate_value (.str "") [⟨"required", none, "", none, none, 0, none⟩,
        ⟨"regex", none, "a", none, none, 0, none⟩] =
      ["required validation failed", "regex validation failed"] := by
  refine ⟨validate_value_flatMap value rules, fun r => ?_, rfl⟩
  rw [validate_single]
  exact ruleMsgs_length value r

/-- C7 witness: the required/regex ordering clause at its concrete input. -/
theorem C7_witness :
    validate_value (.str "") [⟨"required", none, "", none, none, 0, none⟩,
        ⟨"regex", none, "a", none, none, 0, none⟩] =
      ["required validation failed", "regex validation failed"] :=
  (C7_rule_evaluation_amended (.str "") []).2.2

/-- C4 counterexample: claim C4 states no exception propagates for every
value; but `_format_date` on the integer 20240115 raises `TypeError` from
`fromisoformat`, which the `except (ValueError, AttributeError)` clause does
not catch. -/
theorem C4_counterexample :
    _format_date (.int 20240115) defaultParams = PyResult.raised := rfl

/-- C4 (amended): for every string value and parameter set, when parsing
under the configured input format fails, `_format_date` returns the original
value stringified, unchanged, and no exception propagates; a non-string value
raises `TypeError` (uncaught) instead. -/
theorem C4_parse_failure_returns_original :
    (∀ (s : String) (params : FormatParams),
        parseDateValue params.input_format s = none →
        _format_date (.str s) params = .ok (pyStr (.str s))) ∧
    (∀ (value : JValue) (params : FormatParams), (∀ s, value ≠ .str s) →
        _format_date value params = .raised) := by
  constructor
  · intro s params hp
    simp only [_format_date, hp]
  · intro value params hs
    cases value
    case str s => exact absurd rfl (hs s)
    all_goals rfl

/-- C4 witness: a concrete unparseable string is returned unchanged. -/
theorem C4_witness :
    _format_date (.str "not-a-date") defaultParams = .ok (pyStr (.str "not-a-date")) :=
  C4_parse_failure_returns_original.1 "not-a-date" defaultParams rfl

/-- C5: currency formatting coerces to a number ("0.00" on any non-numeric
input, never raising); the two sign-handling examples hold; and at the
failing input (thousands_separator configured as ".") the output still groups
with "," — the configured separator is read but never used by the source. -/
theorem C5_currency_formatting :
    (∀ (value : JValue) (params : FormatParams), pyFloat value = none →
        _format_currency value params = "0.00") ∧
    _format_currency (.float (Rat.mk' (-2469) 2)) c5ParensParams = "($1,234.50)" ∧
    _format_currency (.float (Rat.mk' (-2469) 2)) c5MinusParams = "-$1,234.50" ∧
    _format_currency (.int 1234567) c5DotSepParams = "$1,234,567.00" := by
  refine ⟨fun value params hp => ?_, ?_, ?_, ?_⟩
  · unfold _format_currency
    rw [hp]
  · with_unfolding_all rfl
  · with_unfolding_all rfl
  · with_unfolding_all rfl

/-- C5 witness: the non-numeric clause at a concrete input. -/
theorem C5_witness :
    _format_currency (.str "abc") defaultParams = "0.00" :=
  C5_currency_formatting.1 (.str "abc") defaultParams rfl

/-- C9: a field whose resolved value is absent (None) and which is not
required issues no draw calls and leaves both accumulators unchanged; a
required field whose value fails validation is excluded from drawing but its
prefixed validation errors are appended to the error accumulator (exactly one
message when exactly one rule fails). -/
theorem C9_skip_and_required_validation
    (uw : String → String → Rat) (pageW pageH : Rat) (data : JValue) (show_debug : Bool)
    (field : FieldSpec) (errors warnings : List String) :
    (resolve_value_reference data field.path field.default_value = .ok .null →
      field.required = false →
      _render_field uw pageW pageH data show_debug field errors warnings =
        .ok ⟨[], errors, warnings⟩) ∧
    (∀ (v : JValue) (msgs : List String),
      resolve_value_reference data field.path field.default_value = .ok v →
      field.required = true →
      validate_value v field.validation = msgs → msgs ≠ [] →
      _render_field uw pageW pageH data show_debug field errors warnings =
        .ok ⟨[], errors ++ msgs.map (fun e => field.field_id ++ ": " ++ e), warnings⟩ ∧
      (msgs.length = 1 →
        (errors ++ msgs.map (fun e => field.field_id ++ ": " ++ e)).length =
          errors.length + 1)) := by
  constructor
  · intro hres hreq
    simp only [_render_field, hres]
    rw [if_pos (by rw [hreq]; rfl)]
  · intro v msgs hres hreq hval hne
    constructor
    · simp only [_render_field, hres]
      rw [if_neg (by rw [hreq]; simp)]
      simp only [hval, ne_eq, hne, not_false_iff, if_true, hreq]
    · intro h1
      simp [h1]

theorem shrink_new_size_lt (B S A : Rat) (huw : 0 ≤ B) (h0 : 0 ≤ A) (hover : A < B * S) :
    S * (A / (B * S)) * (95 / 100) < S := by
  have htwpos : (0 : Rat) < B * S := lt_of_le_of_lt h0 hover
  have hSpos : 0 < S := by
    rcases mul_pos_iff.mp htwpos with ⟨_, h2⟩ | ⟨h1, _⟩
    · exact h2
    · exact absurd huw (not_le.mpr h1)
  have hs0 : 0 ≤ A / (B * S) := div_nonneg h0 htwpos.le
  have hs1 : A / (B * S) < 1 := (div_lt_one htwpos).mpr hover
  have h2 : S * (A / (B * S)) < S := mul_lt_of_lt_one_right hSpos hs1
  have h3 : S * (A / (B * S)) * (95 / 100) ≤ S * (A / (B * S)) :=
    mul_le_of_le_one_right (mul_nonneg hSpos.le hs0) (by norm_num)
  exact lt_of_le_of_lt h3 h2

theorem shrink_remeasured_le (B S A : Rat) (_huw : 0 ≤ B) (h0 : 0 ≤ A) (hover : A < B * S) :
    B * (S * (A / (B * S)) * (95 / 100)) ≤ A := by
  have htwpos : (0 : Rat) < B * S := lt_of_le_of_lt h0 hover
  have htwne : B * S ≠ 0 := ne_of_gt htwpos
  have key : B * (S * (A / (B * S)) * (95 / 100)) = A * (95 / 100) := by
    field_simp
    ring
  rw [key]
  linarith

/-- C8 (amended): under shrink overflow, whenever the measured text width
exceeds the available interior width (width minus left and right padding) and
that available width is nonnegative, the text is redrawn at the strictly
smaller font size `original * (available/width) * 0.95`, the remeasured width
is at most the available interior width, and the alignment anchor is
recomputed at the new width.  (`uw text fam` is the text's width at font size
1; reportlab's `stringWidth` is linear in size with nonnegative glyph
widths.) -/
theorem C8_shrink_overflow_amended
    (uw : String → String → Rat) (pageW pageH : Rat) (data : JValue) (show_debug : Bool)
    (field : FieldSpec) (errors warnings : List String) (v : JValue) (fv : String)
    (g : Geom) (fam : String) (size tw avail : Rat)
    (hg : g = convertGeom field pageW pageH)
    (hfam : fam = mapFont field.font_family)
    (hsize : size = field.font_size)
    (htw : tw = uw fv fam * size)
    (havail : avail = g.width - field.padLeft - field.padRight)
    (hres : resolve_value_reference data field.path field.default_value = .ok v)
    (hskip : (isNull v && !field.required) = false)
    (hval : validate_value v field.validation = [])
    (hfmt : format_value v field.formatting = .ok fv)
    (hcs : field.character_spacing = none)
    (hov : field.overflow_behavior = "shrink")
    (huw : 0 ≤ uw fv fam)
    (h0 : 0 ≤ avail)
    (hover : avail < tw) :
    _render_field uw pageW pageH data show_debug field errors warnings =
      .ok ⟨DrawOp.setFont fam size :: debugOps show_debug g ++
        [DrawOp.setFont fam (size * (avail / tw) * (95 / 100)),
         DrawOp.drawString
           (alignAnchor field.alignment g.x g.width field.padLeft field.padRight
             (uw fv fam * (size * (avail / tw) * (95 / 100))))
           (g.y + (g.height - size) / 2 + size * (3 / 10)) fv],
        errors, warnings⟩ ∧
    size * (avail / tw) * (95 / 100) < size ∧
    uw fv fam * (size * (avail / tw) * (95 / 100)) ≤ avail := by
  subst hg hfam hsize htw havail
  refine ⟨?_, shrink_new_size_lt _ _ _ huw h0 hover, shrink_remeasured_le _ _ _ huw h0 hover⟩
  simp only [_render_field, hres]
  rw [if_neg (by rw [hskip]; exact Bool.false_ne_true)]
  simp only [hval]
  rw [if_neg (fun hc => hc rfl)]
  simp only [renderValue, hfmt, hcs]
  simp only [renderTextPath]
  rw [if_pos ⟨hov, hover⟩]
  rw [if_neg (Ne.symm (ne_of_lt (lt_of_le_of_lt h0 hover)))]

/-- C9 witness: a required field with one failing required rule on an empty
document records exactly one prefixed error and draws nothing. -/
theorem C9_witness :
    _render_field courierUw 612 792 (.obj []) false c9ReqField [] [] =
      .ok ⟨[], ["f1: required validation failed"], []⟩ :=
  ((C9_skip_and_required_validation courierUw 612 792 (.obj []) false c9ReqField [] []).2
    JValue.null ["required validation failed"] rfl rfl rfl (by simp)).1

/-- C8 counterexample: with padding 60+60 exceeding width 100 the available
interior width is -20; the shrink branch still fires (text width 30 > -20),
redraws at size -19/3, and the remeasured width -19 exceeds the available
interior width -20, contradicting the claim's "remeasured width is at most
the available interior width". -/
theorem C8_counterexample :
    _render_field courierUw 612 792 (.obj [("t", .str "ABCDE")]) false c8NegField [] [] =
      .ok ⟨[.setFont "Courier" 10, .setFont "Courier" (Rat.mk' (-19) 3),
        .drawString 60 780 "ABCDE"], [], []⟩ ∧
    ¬ (courierUw "ABCDE" "Courier" * Rat.mk' (-19) 3 ≤ (100 : Rat) - 60 - 60) := by
  constructor
  · with_unfolding_all rfl
  · with_unfolding_all decide

/-- C8 witness: the amended theorem applied to a concrete overflowing field
with nonnegative interior width (96 < text width 120). -/
theorem C8_witness :
    _render_field courierUw 612 792 (.obj [("t", .str "01234567890123456789")]) false
        c8WitField [] [] =
      .ok ⟨DrawOp.setFont "Courier" 10 :: debugOps false ⟨0, 772, 100, 20⟩ ++
        [DrawOp.setFont "Courier" ((10 : Rat) * ((96 : Rat) / 120) * (95 / 100)),
         DrawOp.drawString
           (alignAnchor "left" 0 100 2 2
             (courierUw "01234567890123456789" "Courier" *
               ((10 : Rat) * ((96 : Rat) / 120) * (95 / 100))))
           ((772 : Rat) + ((20 : Rat) - 10) / 2 + 10 * (3 / 10)) "01234567890123456789"],
        [], []⟩ ∧
    (10 : Rat) * ((96 : Rat) / 120) * (95 / 100) < 10 ∧
    courierUw "01234567890123456789" "Courier" *
      ((10 : Rat) * ((96 : Rat) / 120) * (95 / 100)) ≤ 96 := by
  have h := C8_shrink_overflow_amended courierUw 612 792
    (.obj [("t", .str "01234567890123456789")]) false c8WitField [] []
    (.str "01234567890123456789") "01234567890123456789" ⟨0, 772, 100, 20⟩ "Courier"
    10 120 96
    (by with_unfolding_all rfl) (by with_unfolding_all rfl) (by with_unfolding_all rfl)
    (by with_unfolding_all rfl) (by with_unfolding_all rfl) (by with_unfolding_all rfl)
    (by with_unfolding_all rfl) rfl (by with_unfolding_all rfl) rfl rfl
    (by with_unfolding_all decide) (by with_unfolding_all decide)
    (by with_unfolding_all decide)
  exact h
